import Mathlib

/-!
# fanatics-crawler: a shallow embedding of `main.go`

The crawl pipeline of `main.go` is embedded as pure Lean functions over an
explicit world state.  Everything the program reaches through a library is
made explicit:

* the network (`http.Get` followed by `goquery.NewDocumentFromReader`) is an
  oracle `Network` answering the `k`-th request of the run;
* a parsed page (`*goquery.Document`) is the record of what each selector the
  program uses returns on it;
* a Go `error` value is its message, `nil` is `none`;
* a run-time panic (nil dereference, index out of range, negative
  `WaitGroup` counter) is an explicit outcome.
-/

namespace Crawler

/-! ## Data model -/

/-- A Go `error` value (its message); the `nil` error is `none : Option GoError`. -/
abbrev GoError := String

/-- `type Size struct` (the embedded `Model` time stamps are maintained by the
store and never read by the program; they are left out). -/
structure Size where
  Text : String
deriving DecidableEq, Repr

/-- `type Product struct` (without the embedded `Model` time stamps). -/
structure Product where
  Id : Int
  Breadcrumbs : String
  Sizes : List Size
  Detail : String
  Description : String
deriving DecidableEq, Repr

/-- One `li` of `body header .top-nav-component`: the text of its
`a.top-nav-item-link` and, for each `.dropdown-column > a` below it, the
`href` attribute when present. -/
structure MenuEntry where
  label : String
  links : List (Option String)
deriving DecidableEq, Repr

/-- One `div.product-card`: the `href` of `div.product-image-container > a`
(when present) and whether `span.jersey-assurance-message` carries an `href`. -/
structure ProductCard where
  href : Option String
  existJersey : Bool
deriving DecidableEq, Repr

/-- A parsed page, as seen through the selectors used in `main.go`. -/
structure Document where
  /-- texts of `.breadcrumbs-container li[typeof="ListItem"]`, in document order -/
  breadcrumbs : List String
  /-- texts of `.size-selector-list .size-selector-button` -/
  sizes : List String
  /-- text of `.product-details` -/
  detail : String
  /-- text of `.description-box-content div` -/
  description : String
  /-- `href` of the first `div.side-nav-facet-items.featuredDepartmentsBoxes a[href*="jerseys"]` -/
  jerseysHref : Option String
  /-- the `div.product-card` elements -/
  productCards : List ProductCard
  /-- the `body header .top-nav-component li` elements -/
  menu : List MenuEntry
deriving DecidableEq, Repr

/-- What one `http.Get` + `goquery.NewDocumentFromReader` attempt observes:
either `http.Get` fails, or there is a response whose body parses or not and
which carries a status code. -/
inductive HttpResult where
  | transportError (err : GoError)
  | response (parsed : Except GoError Document) (statusCode : Int)

/-- The remote side: the answer to the `k`-th request of the run, for a url. -/
abbrev Network := String → Nat → HttpResult

/-- An attempt fails when `getFailRetry` retries after it: transport error,
parse error, or a status code other than 200. -/
def HttpResult.failed : HttpResult → Bool
  | .transportError _ => true
  | .response (.error _) _ => true
  | .response (.ok _) statusCode => statusCode != 200

/-- A log line: level, format string and the printed arguments (the elapsed
time of the `Get url %v took %v` line is not recorded). -/
inductive LogEntry where
  | info (format : String) (args : List String)
  | warn (format : String) (args : List String)
  | error (format : String) (args : List String)
deriving DecidableEq, Repr

/-- The mutable world of a run: how many `http.Get` calls were made, the log,
and the rows of the `products` table behind `dbConnection`. -/
structure World where
  gets : Nat
  log : List LogEntry
  store : List Product
deriving DecidableEq, Repr

/-- Append one log line. -/
def World.emit (w : World) (e : LogEntry) : World :=
  { w with log := w.log ++ [e] }

/-- The `(doc, err)` result pair of `getFailRetry`. -/
structure FetchResult where
  doc : Option Document
  err : Option GoError
deriving DecidableEq, Repr

/-! ## `getFailRetry` (main.go, lines 60-91) -/

/-- The function `getFailRetry(url, numberRetry, errBefore)`.  The deferred
`Infof` runs when the call returns, hence after the recursive call. -/
def getFailRetry (net : Network) (url : String) (numberRetry : Int)
    (errBefore : Option GoError) (w : World) : FetchResult × World :=
  if numberRetry ≤ -1 then
    (⟨none, errBefore⟩, w.emit (.info "Get url %v took %v" [url]))
  else
    let w1 : World := { w with gets := w.gets + 1 }
    match net url w.gets with
    | .transportError err =>
      let r := getFailRetry net url (numberRetry - 1) (some err)
        (w1.emit (.warn "Error get url : %v with error : %v" [url, err]))
      (r.1, r.2.emit (.info "Get url %v took %v" [url]))
    | .response (.error err) _ =>
      let r := getFailRetry net url (numberRetry - 1) (some err)
        (w1.emit (.warn "Error read document in url : %s" [url]))
      (r.1, r.2.emit (.info "Get url %v took %v" [url]))
    | .response (.ok doc) statusCode =>
      if statusCode ≠ 200 then
        -- `err` is the (nil) error of the successful parse at this point
        let r := getFailRetry net url (numberRetry - 1) none
          (w1.emit (.warn "status code error: %d %s %s" [toString statusCode, url]))
        (r.1, r.2.emit (.info "Get url %v took %v" [url]))
      else
        (⟨some doc, none⟩, w1.emit (.info "Get url %v took %v" [url]))
termination_by (numberRetry + 1).toNat
decreasing_by all_goals omega

/-! ## `containsString` and `getUrlPage` (main.go, lines 93-105) -/

/-- The Go `map[string]struct{}` of `containsString`, as the list of its keys;
`set[s] = struct{}{}` adds the key when it is not there yet. -/
def mapSet (set : List String) (s : String) : List String :=
  if s ∈ set then set else s :: set

/-- The function `containsString(slice, item)`: fill the set, then look up. -/
def containsString (slice : List String) (item : String) : Bool :=
  let set := slice.foldl mapSet []
  decide (item ∈ set)

/-- The function `getUrlPage(url)`. -/
def getUrlPage (url : String) : String :=
  "https://www.fanatics.com" ++ url

/-! ## Library functions used by `CrawlerPageProduct` -/

/-- The two `strconv` error kinds. -/
inductive NumError where
  | ErrSyntax
  | ErrRange
deriving DecidableEq, Repr

/-- The `lower(c)` helper of `strconv`: `c | ('x' - 'X')`. -/
def strconvLower (c : Char) : Nat := c.toNat ||| 0x20

/-- The digit loop of `strconv.ParseUint(s, base, bitSize)` for `2 <= base <= 36`,
with `cutoff = maxUint64/base + 1` and `maxVal = 2^bitSize - 1`; `n` is the
`uint64` accumulator. -/
def parseUintLoop (base cutoff maxVal : Nat) : List Char → Nat → Nat × Option NumError
  | [], n => (n, none)
  | c :: cs, n =>
    let digit : Option Nat :=
      if 48 ≤ c.toNat ∧ c.toNat ≤ 57 then some (c.toNat - 48)
      else if 97 ≤ strconvLower c ∧ strconvLower c ≤ 122 then some (strconvLower c - 97 + 10)
      else none
    match digit with
    | none => (0, some .ErrSyntax)
    | some d =>
      if d ≥ base then (0, some .ErrSyntax)
      else if n ≥ cutoff then (maxVal, some .ErrRange)
      else
        let n10 := (n * base) % 2 ^ 64
        let n1 := (n10 + d) % 2 ^ 64
        if n1 < n10 ∨ n1 > maxVal then (maxVal, some .ErrRange)
        else parseUintLoop base cutoff maxVal cs n1

/-- The function `strconv.ParseUint(s, base, bitSize)` for `2 <= base <= 36` and
`1 <= bitSize <= 64`. -/
def ParseUint (s : List Char) (base bitSize : Nat) : Nat × Option NumError :=
  if s = [] then (0, some .ErrSyntax)
  else parseUintLoop base ((2 ^ 64 - 1) / base + 1) (2 ^ bitSize - 1) s 0

/-- The function `strconv.ParseInt(s, base, bitSize)` for `2 <= base <= 36` and
`1 <= bitSize <= 64`: the value returned and the error. -/
def ParseInt (s : String) (base bitSize : Nat) : Int × Option NumError :=
  match s.toList with
  | [] => (0, some .ErrSyntax)
  | c :: cs =>
    let neg : Bool := c == '-'
    let digits : List Char := if c == '+' ∨ c == '-' then cs else c :: cs
    let r := ParseUint digits base bitSize
    if r.2 = some .ErrSyntax then (0, some .ErrSyntax)
    else
      let cutoff : Nat := 2 ^ (bitSize - 1)
      if !neg ∧ r.1 ≥ cutoff then ((cutoff : Int) - 1, some .ErrRange)
      else if neg ∧ r.1 > cutoff then (-(cutoff : Int), some .ErrRange)
      else (if neg then -(r.1 : Int) else (r.1 : Int), none)

/-- The literal part of the pattern `Product ID: (\d+)`. -/
def productIdLabel : List Char := "Product ID: ".toList

/-- A match of `Product ID: (\d+)` that starts at the head of the input: the
whole match and the capture group (the longest digit run, `\d` being `[0-9]`). -/
def matchHere (s : List Char) : Option (List Char × List Char) :=
  if productIdLabel.isPrefixOf s then
    let digits := (s.drop productIdLabel.length).takeWhile Char.isDigit
    if digits = [] then none else some (productIdLabel ++ digits, digits)
  else none

/-- The leftmost match of `Product ID: (\d+)` in the input. -/
def findSubmatch : List Char → Option (List Char × List Char)
  | [] => none
  | c :: cs =>
    match matchHere (c :: cs) with
    | some m => some m
    | none => findSubmatch cs

/-- The call `regex.FindStringSubmatch(s)` for `regex = Product ID: (\d+)`:
`nil` without a match, else the whole match followed by the capture group. -/
def FindStringSubmatch (s : String) : List String :=
  match findSubmatch s.toList with
  | none => []
  | some (whole, group) => [String.mk whole, String.mk group]

/-- Go slice indexing `xs[i]`; `none` is the index-out-of-range panic. -/
def goIndex {α : Type} (xs : List α) (i : Int) : Option α :=
  if i < 0 then none else xs[i.toNat]?

/-! ## The store behind `dbConnection` -/

/-- Modelled from the spec: gorm's `FirstOrCreate(out, where)` is library code
outside the repository.  Following "find by Id or create" and the glossary's
"insert if absent, else leave existing row untouched (no update-on-conflict)":
the first row whose `Id` equals the condition is loaded into `out` and the
table is left as it is; without such a row, `out` with the condition's `Id` is
inserted.  Returns the table and the value left in `out`. -/
def dbFirstOrCreate (store : List Product) (out : Product) (whereId : Int) :
    List Product × Product :=
  match store.find? (fun row => row.Id == whereId) with
  | some row => (store, row)
  | none => (store ++ [{ out with Id := whereId }], { out with Id := whereId })

/-- Modelled from the spec: gorm's `Create(value)` is library code outside the
repository.  Following "unconditional insert (each call creates a new row; no
dedup)" with an `Id` of zero meaning "unknown, assign by storage": one row is
appended, without looking at the rows present; a zero `Id` is replaced by the
key the storage assigns (`assignId`).  Returns the table and the value left in
`value`. -/
def dbCreate (assignId : List Product → Int) (store : List Product) (value : Product) :
    List Product × Product :=
  let row : Product := if value.Id = 0 then { value with Id := assignId store } else value
  (store ++ [row], row)

/-- What the program takes from its surroundings: the network, the
`encoding/json` rendering of a `[]string`, and the key the storage assigns to
a row created without one. -/
structure Env where
  net : Network
  jsonMarshal : List String → String
  assignId : List Product → Int

/-! ## Outcomes of a tier -/

/-- How the sequential part of a tier ends: it returns, it reaches its
dispatch loops with a worker count and the work items, or the goroutine
panics. -/
inductive Outcome (α : Type) where
  | returned (w : World)
  | dispatch (w : World) (maxRoutine : Int) (urls : List α)
  | panicked (w : World) (reason : String)

/-- The world in which a tier ends. -/
def Outcome.world {α : Type} : Outcome α → World
  | .returned w => w
  | .dispatch w _ _ => w
  | .panicked w _ => w

/-- The run-time error of calling `Find` on a nil `*goquery.Document`. -/
def nilDereference : String :=
  "runtime error: invalid memory address or nil pointer dereference"

/-- The run-time error of `breadcrumbs[len(breadcrumbs)-1]` on an empty slice. -/
def indexOutOfRange : String := "runtime error: index out of range [-1]"

/-! ## `CrawlerPageProduct` (main.go, lines 107-155) -/

/-- Lines 115-146 of `CrawlerPageProduct`: the record built from a fetched
page; `none` is the index-out-of-range panic of line 124. -/
def buildProduct (jsonMarshal : List String → String) (document : Document) :
    Option Product :=
  let breadcrumbs := document.breadcrumbs
  match goIndex breadcrumbs ((breadcrumbs.length : Int) - 1) with
  | none => none
  | some last =>
    let res := FindStringSubmatch last
    let sizes := document.sizes.map Size.mk
    let detail := document.detail
    let description := document.description
    let breadcrumbsJson := jsonMarshal breadcrumbs
    let product : Product :=
      { Id := 0, Breadcrumbs := breadcrumbsJson, Sizes := sizes,
        Description := description, Detail := detail }
    match res with
    | [] => some product
    | res0 :: _ => some { product with Id := (ParseInt res0 10 32).1 }

/-- Which call the persistence step makes. -/
inductive PersistBranch where
  | firstOrCreate
  | create
deriving DecidableEq, Repr

/-- The test `product.Id > 0` of line 148. -/
def persistBranch (product : Product) : PersistBranch :=
  if product.Id > 0 then .firstOrCreate else .create

/-- Lines 147-153 of `CrawlerPageProduct`, run while holding the lock `l`:
`FirstOrCreate` keyed by the `Id` when it is positive, `Create` otherwise. -/
def persist (assignId : List Product → Int) (store : List Product) (product : Product) :
    List Product × Product :=
  match persistBranch product with
  | .firstOrCreate => dbFirstOrCreate store product product.Id
  | .create => dbCreate assignId store product

/-- The function `CrawlerPageProduct(url, isFree)`. -/
def CrawlerPageProduct (env : Env) (url : String) (isFree : Bool) (w : World) :
    Outcome Empty :=
  let r := getFailRetry env.net url 3 none w
  match r.1.err with
  | some err => .returned (r.2.emit (.error "Can not get page url: %v, err %v" [err]))
  | none =>
    match r.1.doc with
    | none => .panicked r.2 nilDereference
    | some document =>
      match buildProduct env.jsonMarshal document with
      | none => .panicked r.2 indexOutOfRange
      | some product =>
        .returned { r.2 with store := (persist env.assignId r.2.store product).1 }

/-! ## `CrawlerPageCollection` (main.go, lines 157-228) -/

/-- The local `type dataProduct struct`. -/
structure dataProduct where
  url : String
  existJersey : Bool
deriving DecidableEq, Repr

/-- The callback of `document.Find("div.product-card").Each` (lines 186-200),
for the card at index `i`: a card without a link is logged and skipped. -/
def collectCard (acc : List dataProduct × World) (i : Nat) (card : ProductCard) :
    List dataProduct × World :=
  match card.href with
  | none =>
    (acc.1, acc.2.emit (.error "warning href is index %v, page %v" [toString i, getUrlPage ""]))
  | some href => (acc.1 ++ [{ url := getUrlPage href, existJersey := card.existJersey }], acc.2)

/-- The `Each` loop over the product cards, from index `i` on. -/
def collectCards : List ProductCard → Nat → List dataProduct × World → List dataProduct × World
  | [], _, acc => acc
  | card :: cards, i, acc => collectCards cards (i + 1) (collectCard acc i card)

/-- The function `CrawlerPageCollection(maxRoutine, url)` up to its dispatch
loops (lines 157-202). -/
def CrawlerPageCollection (env : Env) (maxRoutine : Int) (url : String) (w : World) :
    Outcome dataProduct :=
  let r := getFailRetry env.net url 3 none w
  match r.1.err with
  | some err => .returned (r.2.emit (.error "Can not get page url: %v, err %v" [err]))
  | none =>
    match r.1.doc with
    | none => .panicked r.2 nilDereference
    | some document =>
      match document.jerseysHref with
      | none => .returned (r.2.emit (.error "href jerseys nil %v" [url]))
      | some href =>
        let r2 := getFailRetry env.net (getUrlPage href) 3 none r.2
        match r2.1.err with
        | some err => .returned (r2.2.emit (.error "Can not get page url: %v, err %v" [err]))
        | none =>
          match r2.1.doc with
          | none => .panicked r2.2 nilDereference
          | some document2 =>
            let c := collectCards document2.productCards 0 ([], r2.2)
            .dispatch c.2 maxRoutine c.1

/-! ## `startRunCrawlerPage` (main.go, lines 230-286) -/

/-- The constant `menuUsed`. -/
def menuUsed : List String := ["nfl", "mlb", "nba", "nhl"]

/-- The inner `Each` (lines 248-257): the page urls of the links that carry
an `href`. -/
def dropdownUrls (links : List (Option String)) : List String :=
  links.filterMap (fun link => link.map getUrlPage)

/-- The outer `Each` (lines 242-258): entries whose label is not in `menuUsed`
are skipped, the others append the urls of their dropdown links. -/
def rootUrls : List MenuEntry → List String
  | [] => []
  | entry :: rest =>
    if !containsString menuUsed entry.label then rootUrls rest
    else dropdownUrls entry.links ++ rootUrls rest

/-- The function `startRunCrawlerPage(maxRoutine)` up to its dispatch loops
(lines 230-260).  The `if err != nil` of line 234 logs and falls through. -/
def startRunCrawlerPage (env : Env) (maxRoutine : Int) (w : World) : Outcome String :=
  let r := getFailRetry env.net "https://www.fanatics.com/" 3 none w
  let w1 : World :=
    match r.1.err with
    | some err => r.2.emit (.error "Can not get page %v" [err])
    | none => r.2
  match r.1.doc with
  | none => .panicked w1 nilDereference
  | some document => .dispatch w1 maxRoutine (rootUrls document.menu)

/-! ## The dispatch loops (main.go, lines 202-226 and 260-284)

Both tiers run the same code: `wg.Add(maxItem)`, `maxRoutine` worker
goroutines that receive from the buffered channel `ch` and start
`go handler(item)` for every item received, the sends, `close(ch)` and
`wg.Wait()`.  The goroutines are interleaved by a scheduler: a run is a list
of `Action`s, each letting one goroutine take its next step. -/

/-- Where the calling goroutine stands: in the loop that starts the workers
(with its counter `i`), in the loop that sends (with the items still to send,
`close(ch)` following the last), blocked in `wg.Wait()`, or past it. -/
inductive MainPc (α : Type) where
  | spawn (i : Int)
  | send (rest : List α)
  | wait
  | returned
deriving DecidableEq, Repr

/-- A worker goroutine: at the receive `<-ch`, holding a received item it is
about to hand to `go handler(item)`, or returned after `wg.Done()`. -/
inductive Worker (α : Type) where
  | recv
  | got (item : α)
  | exited
deriving DecidableEq, Repr

/-- A goroutine started by `go handler(item)`: created, running the handler,
or finished. -/
inductive HandlerState where
  | pending
  | running
  | finished
deriving DecidableEq, Repr

/-- The state of one dispatcher run. -/
structure Dispatch (α : Type) where
  pc : MainPc α
  /-- capacity of `ch` -/
  cap : Nat
  /-- items buffered in `ch`, oldest first -/
  ch : List α
  closed : Bool
  /-- the `WaitGroup` counter -/
  wg : Int
  workers : List (Worker α)
  /-- the handler goroutines, in the order they were started -/
  handlers : List (α × HandlerState)
  /-- set by `wg.Done()` taking the counter below zero -/
  panicked : Bool
deriving DecidableEq, Repr

/-- The state after `make(chan, maxItem)` and `wg.Add(maxItem)`. -/
def Dispatch.init {α : Type} (urls : List α) : Dispatch α :=
  { pc := .spawn 0, cap := urls.length, ch := [], closed := false,
    wg := (urls.length : Int), workers := [], handlers := [], panicked := false }

/-- Who takes the next step. -/
inductive Action where
  | main
  | worker (i : Nat)
  | handler (j : Nat)
deriving DecidableEq, Repr

/-- One step of the calling goroutine; `none` when it is blocked or done. -/
def stepMain {α : Type} (maxRoutine : Int) (urls : List α) (s : Dispatch α) :
    Option (Dispatch α) :=
  match s.pc with
  | .spawn i =>
    if i < maxRoutine then
      some { s with workers := s.workers ++ [Worker.recv], pc := .spawn (i + 1) }
    else some { s with pc := .send urls }
  | .send (x :: rest) =>
    if s.ch.length < s.cap then
      some { s with ch := s.ch ++ [x], pc := .send rest }
    else none
  | .send [] => some { s with closed := true, pc := .wait }
  | .wait => if s.wg = 0 then some { s with pc := .returned } else none
  | .returned => none

/-- One step of worker `i`: receive an item, or see the channel closed and
drained and call `wg.Done()`, or start `go handler(item)`. -/
def stepWorker {α : Type} (i : Nat) (s : Dispatch α) : Option (Dispatch α) :=
  match s.workers[i]? with
  | some .recv =>
    match s.ch with
    | x :: rest => some { s with ch := rest, workers := s.workers.set i (.got x) }
    | [] =>
      if s.closed then
        if s.wg - 1 < 0 then some { s with wg := s.wg - 1, panicked := true }
        else some { s with wg := s.wg - 1, workers := s.workers.set i .exited }
      else none
  | some (.got x) =>
    some { s with handlers := s.handlers ++ [(x, HandlerState.pending)],
                  workers := s.workers.set i .recv }
  | some .exited => none
  | none => none

/-- One step of handler goroutine `j`: begin running, or finish. -/
def stepHandler {α : Type} (j : Nat) (s : Dispatch α) : Option (Dispatch α) :=
  match s.handlers[j]? with
  | some (x, .pending) => some { s with handlers := s.handlers.set j (x, .running) }
  | some (x, .running) => some { s with handlers := s.handlers.set j (x, .finished) }
  | some (_, .finished) => none
  | none => none

/-- One scheduled step; nothing moves once the process has panicked. -/
def step {α : Type} (maxRoutine : Int) (urls : List α) (a : Action) (s : Dispatch α) :
    Option (Dispatch α) :=
  if s.panicked then none
  else
    match a with
    | .main => stepMain maxRoutine urls s
    | .worker i => stepWorker i s
    | .handler j => stepHandler j s

/-- Run a schedule from a state; `none` when it asks a goroutine that cannot
move to move. -/
def run {α : Type} (maxRoutine : Int) (urls : List α) :
    List Action → Dispatch α → Option (Dispatch α)
  | [], s => some s
  | a :: rest, s =>
    match step maxRoutine urls a s with
    | none => none
    | some s1 => run maxRoutine urls rest s1

/-- The handler invocations that have started and not yet finished. -/
def Dispatch.active {α : Type} (s : Dispatch α) : Nat :=
  (s.handlers.filter (fun h => h.2 == HandlerState.running)).length

/-- The items handed to the handler so far, in order. -/
def Dispatch.dispatched {α : Type} (s : Dispatch α) : List α :=
  s.handlers.map (fun h => h.1)

/-- The workers that have called `wg.Done()` and returned. -/
def exitedCount {α : Type} : List (Worker α) → Nat
  | [] => 0
  | .exited :: ws => exitedCount ws + 1
  | _ :: ws => exitedCount ws

/-! ## Concrete inputs and specification-level notions -/

/-- A page with nothing on it. -/
def emptyDocument : Document :=
  { breadcrumbs := [], sizes := [], detail := "", description := "",
    jerseysHref := none, productCards := [], menu := [] }

/-- A world at the start of a run: no request made, empty log, empty table. -/
def World.start : World := { gets := 0, log := [], store := [] }

/-- A remote side on which every request fails in `http.Get`. -/
def netDown : Network := fun _ _ => .transportError "connection refused"

/-- A remote side that answers every request with a parseable page and
status 404. -/
def netNotFound : Network := fun _ _ => .response (.ok emptyDocument) 404

/-- A remote side that answers every request with status 200 and the given page. -/
def netServing (document : Document) : Network := fun _ _ => .response (.ok document) 200

/-- An environment around a remote side: lists are rendered by `toString`,
the storage numbers new rows by the size of the table. -/
def Env.around (net : Network) : Env :=
  { net := net, jsonMarshal := fun xs => toString xs,
    assignId := fun store => (store.length : Int) + 1 }

/-- The work items a tier hands to its dispatch loops (none when it returns
early or panics). -/
def Outcome.items {α : Type} : Outcome α → List α
  | .dispatch _ _ urls => urls
  | _ => []

/-- The urls of the dropdown links of the entries whose label is on the list
`allowed`: what root discovery is to collect. -/
def allowedUrls (allowed : List String) (menu : List MenuEntry) : List String :=
  ((menu.filter (fun entry => decide (entry.label ∈ allowed))).map
    (fun entry => dropdownUrls entry.links)).flatten

/-- The text contains `Product ID: ` followed by at least one decimal digit. -/
def HasProductId (s : String) : Prop :=
  ∃ pre digits post : List Char,
    s.toList = pre ++ (productIdLabel ++ digits) ++ post ∧ digits ≠ [] ∧
      ∀ c ∈ digits, c.isDigit = true

/-- An item page whose breadcrumb trail ends in `Category > Product ID: 9183`. -/
def itemPage9183 : Document :=
  { emptyDocument with breadcrumbs := ["Home", "Category > Product ID: 9183"] }

/-- An item page whose breadcrumb trail names no product identity. -/
def itemPagePlain : Document :=
  { emptyDocument with breadcrumbs := ["Home", "Jerseys"] }

/-- Two records with identity 42 and different field values. -/
def record42a : Product :=
  { Id := 42, Breadcrumbs := "[Home]", Sizes := [⟨"S"⟩], Detail := "first",
    Description := "first caller" }

/-- The second record with identity 42. -/
def record42b : Product :=
  { Id := 42, Breadcrumbs := "[Home]", Sizes := [⟨"M"⟩], Detail := "second",
    Description := "second caller" }

/-- The items received by workers and not yet handed to the handler. -/
def heldItems {α : Type} : List (Worker α) → List α
  | [] => []
  | .got x :: ws => x :: heldItems ws
  | _ :: ws => heldItems ws

/-- The items the caller has not sent yet. -/
def unsent {α : Type} (urls : List α) : MainPc α → List α
  | .spawn _ => urls
  | .send rest => rest
  | .wait => []
  | .returned => []

/-- Where every work item is: handed to the handler, held by a worker,
buffered in the channel, or not sent yet. -/
def Dispatch.whereabouts {α : Type} (urls : List α) (s : Dispatch α) : List α :=
  s.dispatched ++ (heldItems s.workers ++ (s.ch ++ unsent urls s.pc))

/-- What holds in every state of a dispatcher run with `C` workers over `K`
items when `C < K`: no panic, the counter is `K` minus the workers that have
called `Done`, at most `C` workers exist, and the caller is not past `Wait`. -/
def StuckInv {α : Type} (C : Int) (K : Nat) (s : Dispatch α) : Prop :=
  s.panicked = false ∧ s.wg + (exitedCount s.workers : Int) = (K : Int) ∧
    s.pc ≠ MainPc.returned ∧ (s.workers.length : Int) ≤ C ∧
    ∀ i, s.pc = MainPc.spawn i → (s.workers.length : Int) = i

/-- A schedule for one worker and two items: the caller starts the worker,
sends both items and closes the channel; the worker receives and starts the
handler for each item. -/
def scheduleDispatchBoth : List Action :=
  [.main, .main, .main, .main, .main, .worker 0, .worker 0, .worker 0, .worker 0]

/-! ## Theorems -/

@[simp] theorem emit_gets (w : World) (e : LogEntry) : (w.emit e).gets = w.gets := rfl

@[simp] theorem emit_store (w : World) (e : LogEntry) : (w.emit e).store = w.store := rfl

/-- With budget `n - 1` and only failing attempts, `n` requests are made. -/
theorem getFailRetry_gets_aux (net : Network) (url : String)
    (hfail : ∀ k, (net url k).failed = true) :
    ∀ (n : Nat) (e : Option GoError) (w : World),
      (getFailRetry net url ((n : Int) - 1) e w).2.gets = w.gets + n := by
  intro n
  induction n with
  | zero =>
    intro e w
    rw [getFailRetry]
    simp
  | succ m ih =>
    intro e w
    rw [getFailRetry]
    have hlt : ¬ ((((m + 1 : Nat) : Int) - 1) ≤ -1) := by omega
    have hm : (((m + 1 : Nat) : Int) - 1 - 1) = (m : Int) - 1 := by omega
    simp only [hlt, if_false, hm]
    have hf := hfail w.gets
    cases hnet : net url w.gets with
    | transportError err =>
      simp only [emit_gets, ih]
      omega
    | response parsed statusCode =>
      cases parsed with
      | error err =>
        simp only [emit_gets, ih]
        omega
      | ok doc =>
        have hs : statusCode ≠ 200 := by
          simpa [hnet, HttpResult.failed] using hf
        simp only [hs, ne_eq, not_false_eq_true, if_true, emit_gets, ih]
        omega

/-- C1: when every attempt fails (transport error, parse error or non-200
status), `getFailRetry(url, N, nil)` with `N >= 0` performs exactly `N + 1`
network attempts before it gives up. -/
theorem getFailRetry_attempts (net : Network) (url : String) (N : Nat) (w : World)
    (hfail : ∀ k, (net url k).failed = true) :
    (getFailRetry net url (N : Int) none w).2.gets = w.gets + (N + 1) := by
  have h := getFailRetry_gets_aux net url hfail (N + 1) none w
  have hN : (((N + 1 : Nat) : Int) - 1) = (N : Int) := by omega
  rw [hN] at h
  exact h

/-- The instance of C1 on a remote side that is down, with a budget of 3. -/
theorem getFailRetry_attempts_witness :
    (∀ k, (netDown "https://www.fanatics.com/" k).failed = true) ∧
    (getFailRetry netDown "https://www.fanatics.com/" ((3 : Nat) : Int) none World.start).2.gets
      = World.start.gets + (3 + 1) :=
  ⟨fun _ => rfl,
   getFailRetry_attempts netDown "https://www.fanatics.com/" 3 World.start (fun _ => rfl)⟩

/-- When every attempt is answered with a parseable page and a status other
than 200, the call returns neither a document nor an error. -/
theorem getFailRetry_badStatus_aux (net : Network) (url : String)
    (hbad : ∀ k, ∃ doc code, net url k = .response (.ok doc) code ∧ code ≠ 200) :
    ∀ (n : Nat) (w : World),
      (getFailRetry net url ((n : Int) - 1) none w).1 = ⟨none, none⟩ := by
  intro n
  induction n with
  | zero =>
    intro w
    rw [getFailRetry]
    simp
  | succ m ih =>
    intro w
    rw [getFailRetry]
    have hlt : ¬ ((((m + 1 : Nat) : Int) - 1) ≤ -1) := by omega
    have hm : (((m + 1 : Nat) : Int) - 1 - 1) = (m : Int) - 1 := by omega
    obtain ⟨doc, code, hnet, hcode⟩ := hbad w.gets
    simp only [hlt, if_false, hm, hnet, hcode, ne_eq, not_false_eq_true, if_true, ih]

/-- When every attempt fails in `http.Get` with the same error, that error is
returned, without a document. -/
theorem getFailRetry_transport_aux (net : Network) (url : String) (err : GoError)
    (hdown : ∀ k, net url k = .transportError err) :
    ∀ (n : Nat) (e : Option GoError) (w : World),
      (getFailRetry net url (n : Int) e w).1 = ⟨none, some err⟩ := by
  intro n
  induction n with
  | zero =>
    intro e w
    rw [getFailRetry]
    have h0 : ¬ (((0 : Nat) : Int) ≤ -1) := by omega
    simp only [h0, if_false, hdown]
    rw [getFailRetry]
    simp
  | succ m ih =>
    intro e w
    rw [getFailRetry]
    have hlt : ¬ (((m + 1 : Nat) : Int) ≤ -1) := by omega
    have hm : (((m + 1 : Nat) : Int) - 1) = (m : Int) := by omega
    simp only [hlt, if_false, hm, hdown, ih]

/-- C2 (fails on the code): with a budget of 3 and every attempt answered by
status 404, `getFailRetry` makes its 4 attempts and returns no document and a
nil error, not the non-nil error the claim asks for. -/
theorem getFailRetry_badStatus_nil_error :
    (∀ k, (netNotFound "https://www.fanatics.com/" k).failed = true) ∧
    (getFailRetry netNotFound "https://www.fanatics.com/" 3 none World.start).1
      = ⟨none, none⟩ ∧
    (getFailRetry netNotFound "https://www.fanatics.com/" 3 none World.start).2.gets = 4 := by
  refine ⟨fun _ => rfl, ?_, ?_⟩
  · exact getFailRetry_badStatus_aux netNotFound "https://www.fanatics.com/"
      (fun _ => ⟨emptyDocument, 404, rfl, by decide⟩) 4 World.start
  · exact getFailRetry_gets_aux netNotFound "https://www.fanatics.com/"
      (fun _ => rfl) 4 none World.start

/-! ### `containsString` and root discovery -/

theorem mem_foldl_mapSet (slice : List String) (item : String) :
    ∀ acc : List String, item ∈ slice.foldl mapSet acc ↔ item ∈ acc ∨ item ∈ slice := by
  induction slice with
  | nil => intro acc; simp
  | cons s rest ih =>
    intro acc
    rw [List.foldl_cons, ih]
    unfold mapSet
    by_cases hs : s ∈ acc
    · simp only [hs, if_true, List.mem_cons]
      constructor
      · rintro (h | h)
        · exact Or.inl h
        · exact Or.inr (Or.inr h)
      · rintro (h | h | h)
        · exact Or.inl h
        · exact Or.inl (h ▸ hs)
        · exact Or.inr h
    · simp only [hs, if_false, List.mem_cons]
      constructor
      · rintro ((h | h) | h)
        · exact Or.inr (Or.inl h)
        · exact Or.inl h
        · exact Or.inr (Or.inr h)
      · rintro (h | h | h)
        · exact Or.inl (Or.inr h)
        · exact Or.inl (Or.inl h)
        · exact Or.inr h

theorem containsString_iff (slice : List String) (item : String) :
    containsString slice item = true ↔ item ∈ slice := by
  unfold containsString
  simp [mem_foldl_mapSet]

theorem rootUrls_eq_allowedUrls (menu : List MenuEntry) :
    rootUrls menu = allowedUrls menuUsed menu := by
  induction menu with
  | nil => rfl
  | cons entry rest ih =>
    unfold allowedUrls at ih ⊢
    by_cases h : entry.label ∈ menuUsed
    · have hc : containsString menuUsed entry.label = true := (containsString_iff _ _).mpr h
      simp [rootUrls, hc, h, ih]
    · have hc : containsString menuUsed entry.label = false := by
        cases hb : containsString menuUsed entry.label with
        | false => rfl
        | true => exact absurd ((containsString_iff _ _).mp hb) h
      simp [rootUrls, hc, h, ih]

/-- C7: `containsString(s, x)` is true exactly when `x` is an element of `s`;
hence root discovery collects the urls of the dropdown links of the entries
labelled "nfl", "mlb", "nba" or "nhl" and of no other entry, an entry with
another label adds nothing, and this is the list `startRunCrawlerPage` hands
to its dispatch loops. -/
theorem containsString_root_discovery (slice : List String) (item : String)
    (menu : List MenuEntry) (entry : MenuEntry) (env : Env) (maxRoutine : Int) (w : World) :
    (containsString slice item = true ↔ item ∈ slice) ∧
    rootUrls menu = allowedUrls ["nfl", "mlb", "nba", "nhl"] menu ∧
    (entry.label ∉ ["nfl", "mlb", "nba", "nhl"] → rootUrls (entry :: menu) = rootUrls menu) ∧
    (startRunCrawlerPage env maxRoutine w).items =
      (match (getFailRetry env.net "https://www.fanatics.com/" 3 none w).1.doc with
       | none => []
       | some document => allowedUrls ["nfl", "mlb", "nba", "nhl"] document.menu) := by
  refine ⟨containsString_iff slice item, rootUrls_eq_allowedUrls menu, ?_, ?_⟩
  · intro h
    have hc : containsString menuUsed entry.label = false := by
      cases hb : containsString menuUsed entry.label with
      | false => rfl
      | true => exact absurd ((containsString_iff _ _).mp hb) h
    simp [rootUrls, hc]
  · unfold startRunCrawlerPage
    generalize getFailRetry env.net "https://www.fanatics.com/" 3 none w = r
    obtain ⟨⟨doc, err⟩, w1⟩ := r
    cases doc with
    | none => rfl
    | some document => exact rootUrls_eq_allowedUrls document.menu

/-! ### The identity pattern and `strconv.ParseInt` -/

theorem productIdLabel_eq :
    productIdLabel = 'P' :: "roduct ID: ".toList := by decide

/-- A match at the head of the input is the label followed by a non-empty run
of digits, and the input continues after it. -/
theorem matchHere_some (s whole group : List Char)
    (h : matchHere s = some (whole, group)) :
    whole = productIdLabel ++ group ∧ group ≠ [] ∧ (∀ c ∈ group, c.isDigit = true) ∧
      ∃ post, s = whole ++ post := by
  unfold matchHere at h
  by_cases hp : productIdLabel.isPrefixOf s = true
  · rw [if_pos hp] at h
    obtain ⟨t, rfl⟩ := List.isPrefixOf_iff_prefix.mp hp
    rw [List.drop_left] at h
    by_cases hd : List.takeWhile Char.isDigit t = []
    · simp [hd] at h
    · simp only [hd, if_false, Option.some.injEq, Prod.mk.injEq] at h
      obtain ⟨hw, hg⟩ := h
      subst hg
      refine ⟨hw.symm, hd, ?_, List.dropWhile Char.isDigit t, ?_⟩
      · intro c hc
        exact List.mem_takeWhile_imp hc
      · rw [← hw, List.append_assoc, List.takeWhile_append_dropWhile]
  · rw [if_neg hp] at h
    exact absurd h (by simp)

/-- The leftmost match, when there is one, has the same shape and sits
somewhere in the input. -/
theorem findSubmatch_some (s whole group : List Char)
    (h : findSubmatch s = some (whole, group)) :
    whole = productIdLabel ++ group ∧ group ≠ [] ∧ (∀ c ∈ group, c.isDigit = true) ∧
      ∃ pre post, s = pre ++ whole ++ post := by
  induction s with
  | nil => simp [findSubmatch] at h
  | cons c cs ih =>
    unfold findSubmatch at h
    cases hm : matchHere (c :: cs) with
    | some m =>
      rw [hm] at h
      simp only [Option.some.injEq] at h
      subst h
      obtain ⟨h1, h2, h3, post, h4⟩ := matchHere_some _ _ _ hm
      exact ⟨h1, h2, h3, [], post, by simpa using h4⟩
    | none =>
      rw [hm] at h
      obtain ⟨h1, h2, h3, pre, post, h4⟩ := ih h
      exact ⟨h1, h2, h3, c :: pre, post, by simp [h4]⟩

/-- An input that starts with the label and a digit has a match at its head. -/
theorem matchHere_of_digits (digits post : List Char) (hne : digits ≠ [])
    (hd : ∀ c ∈ digits, c.isDigit = true) :
    (matchHere ((productIdLabel ++ digits) ++ post)).isSome = true := by
  unfold matchHere
  have hp : productIdLabel.isPrefixOf ((productIdLabel ++ digits) ++ post) = true := by
    rw [List.isPrefixOf_iff_prefix, List.append_assoc]
    exact List.prefix_append _ _
  rw [if_pos hp, List.append_assoc, List.drop_left]
  cases digits with
  | nil => exact absurd rfl hne
  | cons d ds =>
    have hdd : d.isDigit = true := hd d (List.mem_cons_self _ _)
    simp [List.takeWhile_cons, hdd]

/-- The search finds a match whenever the text has one. -/
theorem findSubmatch_complete (pre digits post : List Char) (hne : digits ≠ [])
    (hd : ∀ c ∈ digits, c.isDigit = true) :
    (findSubmatch (pre ++ (productIdLabel ++ digits) ++ post)).isSome = true := by
  induction pre with
  | nil =>
    have h := matchHere_of_digits digits post hne hd
    have hcons : ([] : List Char) ++ (productIdLabel ++ digits) ++ post
        = 'P' :: ("roduct ID: ".toList ++ digits ++ post) := by
      rw [productIdLabel_eq]; simp
    rw [hcons]
    rw [List.nil_append] at hcons
    rw [hcons] at h
    unfold findSubmatch
    cases hm : matchHere ('P' :: ("roduct ID: ".toList ++ digits ++ post)) with
    | some m => rfl
    | none => rw [hm] at h; exact absurd h (by simp)
  | cons c cs ih =>
    have hcons : (c :: cs) ++ (productIdLabel ++ digits) ++ post
        = c :: (cs ++ (productIdLabel ++ digits) ++ post) := by simp
    rw [hcons]
    unfold findSubmatch
    cases hm : matchHere (c :: (cs ++ (productIdLabel ++ digits) ++ post)) with
    | some m => rfl
    | none => exact ih

/-- The regular expression finds nothing exactly in the texts without a
`Product ID: <digits>` part. -/
theorem FindStringSubmatch_nil_iff (s : String) :
    FindStringSubmatch s = [] ↔ ¬ HasProductId s := by
  unfold FindStringSubmatch HasProductId
  constructor
  · intro h ⟨pre, digits, post, hs, hne, hd⟩
    have hc := findSubmatch_complete pre digits post hne hd
    rw [← hs] at hc
    cases hf : findSubmatch s.toList with
    | none => rw [hf] at hc; exact absurd hc (by simp)
    | some m => rw [hf] at h; exact absurd h (by simp)
  · intro h
    cases hf : findSubmatch s.toList with
    | none => rfl
    | some m =>
      obtain ⟨whole, group⟩ := m
      obtain ⟨h1, h2, h3, pre, post, h4⟩ := findSubmatch_some _ _ _ hf
      exact absurd ⟨pre, group, post, by rw [h4, h1], h2, h3⟩ h

/-- The value `strconv.ParseInt` returns for a text that starts with the letter
`P` is 0 (with a syntax error). -/
theorem ParseInt_label (rest : List Char) :
    ParseInt (String.mk ('P' :: rest)) 10 32 = (0, some NumError.ErrSyntax) := by
  have hu : ParseUint ('P' :: rest) 10 32 = (0, some NumError.ErrSyntax) := by
    unfold ParseUint
    rw [if_neg (by simp)]
    rfl
  unfold ParseInt
  have hl : (String.mk ('P' :: rest)).toList = 'P' :: rest := rfl
  rw [hl]
  have hc1 : ('P' == '-') = false := by decide
  have hc2 : ('P' == '+') = false := by decide
  simp only [hc1, hc2, Bool.false_eq_true, or_self, if_false, hu, if_true]

/-- Whatever the page, a record that `CrawlerPageProduct` builds has `Id` 0:
the text handed to `ParseInt` is the whole match, which starts with the label. -/
theorem buildProduct_Id (jsonMarshal : List String → String) (document : Document)
    (product : Product) (h : buildProduct jsonMarshal document = some product) :
    product.Id = 0 := by
  unfold buildProduct at h
  dsimp only at h
  cases hidx : goIndex document.breadcrumbs ((document.breadcrumbs.length : Int) - 1) with
  | none => rw [hidx] at h; exact absurd h (by simp)
  | some last =>
    rw [hidx] at h
    dsimp only at h
    unfold FindStringSubmatch at h
    cases hf : findSubmatch last.toList with
    | none =>
      rw [hf] at h
      simp only [Option.some.injEq] at h
      rw [← h]
    | some m =>
      obtain ⟨whole, group⟩ := m
      rw [hf] at h
      simp only [Option.some.injEq] at h
      obtain ⟨h1, -, -, -⟩ := findSubmatch_some _ _ _ hf
      rw [← h, h1, productIdLabel_eq]
      simp only [List.cons_append]
      rw [ParseInt_label]

/-! ### Fetch results used by the tiers -/

/-- A first attempt answered with status 200 and a parseable page ends the
call with that page, no error, one request and the `Info` line. -/
theorem getFailRetry_ok (net : Network) (url : String) (numberRetry : Int)
    (e : Option GoError) (w : World) (document : Document) (h0 : 0 ≤ numberRetry)
    (hnet : net url w.gets = .response (.ok document) 200) :
    getFailRetry net url numberRetry e w =
      (⟨some document, none⟩,
        ({ w with gets := w.gets + 1 } : World).emit (.info "Get url %v took %v" [url])) := by
  rw [getFailRetry]
  have hlt : ¬ (numberRetry ≤ -1) := by omega
  simp [hlt, hnet]

/-- The function `getFailRetry` never touches the store. -/
theorem getFailRetry_store (net : Network) (url : String) :
    ∀ (n : Nat) (k : Int) (e : Option GoError) (w : World), k < (n : Int) →
      (getFailRetry net url k e w).2.store = w.store := by
  intro n
  induction n with
  | zero =>
    intro k e w hk
    rw [getFailRetry]
    have hle : k ≤ -1 := by omega
    simp [hle]
  | succ m ih =>
    intro k e w hk
    rw [getFailRetry]
    by_cases hle : k ≤ -1
    · simp [hle]
    · have hk1 : k - 1 < (m : Int) := by omega
      simp only [hle, if_false]
      cases hnet : net url w.gets with
      | transportError err => simp only [emit_store, ih _ _ _ hk1]
      | response parsed statusCode =>
        cases parsed with
        | error err => simp only [emit_store, ih _ _ _ hk1]
        | ok doc =>
          by_cases hs : statusCode = 200
          · simp [hs]
          · simp only [hs, ne_eq, not_false_eq_true, if_true, emit_store, ih _ _ _ hk1]

/-! ### Item pages -/

/-- C3 (fails on the code): on the item page whose final breadcrumb entry is
`Category > Product ID: 9183` the pattern matches with capture group `9183`,
which `ParseInt` would read as 9183, but the text handed to `ParseInt` is the
whole match `Product ID: 9183`, so the record is built with `Id` 0 and goes to
the unconditional-create branch. -/
theorem buildProduct_scenario_9183 :
    goIndex itemPage9183.breadcrumbs ((itemPage9183.breadcrumbs.length : Int) - 1)
      = some "Category > Product ID: 9183" ∧
    FindStringSubmatch "Category > Product ID: 9183" = ["Product ID: 9183", "9183"] ∧
    ParseInt "9183" 10 32 = (9183, none) ∧
    ParseInt "Product ID: 9183" 10 32 = (0, some NumError.ErrSyntax) ∧
    (buildProduct (Env.around (netServing itemPage9183)).jsonMarshal itemPage9183).map
      Product.Id = some 0 ∧
    (buildProduct (Env.around (netServing itemPage9183)).jsonMarshal itemPage9183).map
      persistBranch = some PersistBranch.create := by
  refine ⟨by decide, by decide, by decide, by decide, by decide, by decide⟩

/-- With an empty breadcrumb trail no record is built: line 124 indexes the
empty slice at -1. -/
theorem buildProduct_empty_trail (jsonMarshal : List String → String) (document : Document)
    (h : document.breadcrumbs = []) : buildProduct jsonMarshal document = none := by
  unfold buildProduct
  simp [h, goIndex]

/-- C9 (fails on the code): on a successfully fetched item page without any
breadcrumb element, `CrawlerPageProduct` panics with an index out of range at
line 124; it builds no record and does not reach the persistence step. -/
theorem CrawlerPageProduct_empty_trail_panics :
    emptyDocument.breadcrumbs = [] ∧
    (getFailRetry (netServing emptyDocument) "https://www.fanatics.com/p" 3 none World.start).1
      = ⟨some emptyDocument, none⟩ ∧
    CrawlerPageProduct (Env.around (netServing emptyDocument)) "https://www.fanatics.com/p"
        false World.start
      = .panicked
          { gets := 1,
            log := [.info "Get url %v took %v" ["https://www.fanatics.com/p"]],
            store := [] }
          indexOutOfRange := by
  have hf := getFailRetry_ok (netServing emptyDocument) "https://www.fanatics.com/p" 3 none
    World.start emptyDocument (by decide) rfl
  refine ⟨rfl, by rw [hf], ?_⟩
  unfold CrawlerPageProduct
  simp only [Env.around]
  rw [hf]
  rfl

/-- The last entry of a non-empty trail is what line 124 reads. -/
theorem goIndex_last {α : Type} (xs : List α) (hne : xs ≠ []) :
    ∃ last, goIndex xs ((xs.length : Int) - 1) = some last ∧ last ∈ xs := by
  have hlen : 0 < xs.length := List.length_pos.mpr hne
  have hlt : xs.length - 1 < xs.length := by omega
  refine ⟨xs[xs.length - 1], ?_, List.getElem_mem _⟩
  unfold goIndex
  have h0 : ¬ ((xs.length : Int) - 1 < 0) := by omega
  have ht : ((xs.length : Int) - 1).toNat = xs.length - 1 := by omega
  rw [if_neg h0, ht]
  exact List.getElem?_eq_getElem hlt

/-- C10: on an item page whose breadcrumb trail is non-empty and has no
`Product ID: <digits>` part in any entry, the record `CrawlerPageProduct`
builds has `Id` 0, the persistence step takes the `Create` branch, and the call
returns with exactly one row appended to the store, whatever rows it held. -/
theorem CrawlerPageProduct_no_identity (env : Env) (url : String) (isFree : Bool)
    (w : World) (document : Document)
    (hfetch : (getFailRetry env.net url 3 none w).1 = ⟨some document, none⟩)
    (hne : document.breadcrumbs ≠ [])
    (hno : ∀ entry ∈ document.breadcrumbs, ¬ HasProductId entry) :
    ∃ product row,
      buildProduct env.jsonMarshal document = some product ∧
      product.Id = 0 ∧
      persistBranch product = PersistBranch.create ∧
      row = { product with Id := env.assignId w.store } ∧
      CrawlerPageProduct env url isFree w =
        .returned { (getFailRetry env.net url 3 none w).2 with store := w.store ++ [row] } ∧
      (CrawlerPageProduct env url isFree w).world.store.length = w.store.length + 1 := by
  obtain ⟨last, hlast, hmem⟩ := goIndex_last document.breadcrumbs hne
  have hres : FindStringSubmatch last = [] := (FindStringSubmatch_nil_iff last).mpr (hno last hmem)
  have hstore := getFailRetry_store env.net url 4 3 none w (by decide)
  have hb : buildProduct env.jsonMarshal document =
      some { Id := 0, Breadcrumbs := env.jsonMarshal document.breadcrumbs,
             Sizes := document.sizes.map Size.mk, Detail := document.detail,
             Description := document.description } := by
    unfold buildProduct
    dsimp only
    rw [hlast]
    dsimp only
    rw [hres]
  refine ⟨_, _, hb, rfl, rfl, rfl, ?_, ?_⟩
  · unfold CrawlerPageProduct
    dsimp only
    rw [hfetch]
    dsimp only
    rw [hb]
    dsimp only
    rw [hstore]
    rfl
  · unfold CrawlerPageProduct
    dsimp only
    rw [hfetch]
    dsimp only
    rw [hb]
    dsimp only
    rw [hstore]
    simp [Outcome.world, persist, persistBranch, dbCreate]

/-- The instance of C10 on the page with trail `Home`, `Jerseys`. -/
theorem CrawlerPageProduct_no_identity_witness :
    ∃ product row,
      buildProduct (Env.around (netServing itemPagePlain)).jsonMarshal itemPagePlain
        = some product ∧
      product.Id = 0 ∧
      persistBranch product = PersistBranch.create ∧
      row = { product with
                Id := (Env.around (netServing itemPagePlain)).assignId World.start.store } ∧
      CrawlerPageProduct (Env.around (netServing itemPagePlain)) "https://www.fanatics.com/p"
          false World.start =
        .returned
          { (getFailRetry (Env.around (netServing itemPagePlain)).net
                "https://www.fanatics.com/p" 3 none World.start).2 with
            store := World.start.store ++ [row] } ∧
      (CrawlerPageProduct (Env.around (netServing itemPagePlain)) "https://www.fanatics.com/p"
          false World.start).world.store.length = World.start.store.length + 1 :=
  CrawlerPageProduct_no_identity (Env.around (netServing itemPagePlain))
    "https://www.fanatics.com/p" false World.start itemPagePlain
    (by
      have hf := getFailRetry_ok (netServing itemPagePlain) "https://www.fanatics.com/p" 3 none
        World.start itemPagePlain (by decide) rfl
      show (getFailRetry (netServing itemPagePlain) "https://www.fanatics.com/p" 3 none
        World.start).1 = _
      rw [hf])
    (by decide)
    (by
      intro entry hmem
      have hcases : entry = "Home" ∨ entry = "Jerseys" := by
        simpa [itemPagePlain, emptyDocument] using hmem
      rcases hcases with rfl | rfl
      · exact (FindStringSubmatch_nil_iff _).mp (by decide)
      · exact (FindStringSubmatch_nil_iff _).mp (by decide))

/-! ### The persistence step -/

/-- C6: on a store without a row of identity `i > 0`, the persistence step run
for `r1` and then for `r2`, two different records with `Id == i`, leaves
exactly one row with `Id == i`, which is `r1`: the first step appends `r1`, the
second step leaves the store as it is, and `r2` is not in it. -/
theorem persist_twice_same_id (assignId : List Product → Int) (store : List Product)
    (r1 r2 : Product) (i : Int) (hi : i > 0) (h1 : r1.Id = i) (h2 : r2.Id = i)
    (hne : r1 ≠ r2) (hstore : ∀ row ∈ store, row.Id ≠ i) :
    (persist assignId store r1).1 = store ++ [r1] ∧
    (persist assignId (persist assignId store r1).1 r2).1 = (persist assignId store r1).1 ∧
    (persist assignId (persist assignId store r1).1 r2).1.filter (fun row => row.Id == i)
      = [r1] ∧
    r2 ∉ (persist assignId (persist assignId store r1).1 r2).1 := by
  have hb1 : persistBranch r1 = PersistBranch.firstOrCreate := by
    unfold persistBranch; rw [if_pos (by omega)]
  have hb2 : persistBranch r2 = PersistBranch.firstOrCreate := by
    unfold persistBranch; rw [if_pos (by omega)]
  have hnone : store.find? (fun row => row.Id == r1.Id) = none := by
    rw [List.find?_eq_none]
    intro row hrow
    have := hstore row hrow
    simp [h1, this]
  have hp1 : (persist assignId store r1).1 = store ++ [r1] := by
    unfold persist
    rw [hb1]
    unfold dbFirstOrCreate
    rw [hnone]
  have hsome : (store ++ [r1]).find? (fun row => row.Id == r2.Id) = some r1 := by
    rw [List.find?_append, h2, ← h1, hnone]
    simp
  have hp2 : (persist assignId (store ++ [r1]) r2).1 = store ++ [r1] := by
    unfold persist
    rw [hb2]
    unfold dbFirstOrCreate
    rw [hsome]
  have hfilter : store.filter (fun row => row.Id == i) = [] := by
    rw [List.filter_eq_nil_iff]
    intro row hrow
    have := hstore row hrow
    simp [this]
  refine ⟨hp1, ?_, ?_, ?_⟩
  · rw [hp1, hp2]
  · rw [hp1, hp2, List.filter_append, hfilter]
    simp [h1]
  · rw [hp1, hp2]
    intro hmem
    rcases List.mem_append.mp hmem with h | h
    · exact hstore r2 h h2
    · exact hne (List.mem_singleton.mp h).symm

/-- The instance of C6 on the empty store and two records with identity 42. -/
theorem persist_twice_same_id_witness :
    (persist (fun store => (store.length : Int) + 1) [] record42a).1 = [] ++ [record42a] ∧
    (persist (fun store => (store.length : Int) + 1)
        (persist (fun store => (store.length : Int) + 1) [] record42a).1 record42b).1
      = (persist (fun store => (store.length : Int) + 1) [] record42a).1 ∧
    (persist (fun store => (store.length : Int) + 1)
        (persist (fun store => (store.length : Int) + 1) [] record42a).1 record42b).1.filter
          (fun row => row.Id == 42)
      = [record42a] ∧
    record42b ∉ (persist (fun store => (store.length : Int) + 1)
        (persist (fun store => (store.length : Int) + 1) [] record42a).1 record42b).1 :=
  persist_twice_same_id (fun store => (store.length : Int) + 1) [] record42a record42b 42
    (by decide) rfl rfl (by decide) (by intro row hrow; cases hrow)

/-! ### Early return on a failed fetch -/

/-- Tier 3 returns early when its fetch reports an error: one `Error` line, no
panic, and the store as it was. -/
theorem CrawlerPageProduct_fetch_error (env : Env) (url : String) (isFree : Bool)
    (w : World) (e : GoError)
    (hfetch : (getFailRetry env.net url 3 none w).1.err = some e) :
    CrawlerPageProduct env url isFree w =
      .returned ((getFailRetry env.net url 3 none w).2.emit
        (.error "Can not get page url: %v, err %v" [e])) ∧
    (CrawlerPageProduct env url isFree w).world.store = w.store := by
  have hstore := getFailRetry_store env.net url 4 3 none w (by decide)
  have hret : CrawlerPageProduct env url isFree w =
      .returned ((getFailRetry env.net url 3 none w).2.emit
        (.error "Can not get page url: %v, err %v" [e])) := by
    unfold CrawlerPageProduct
    dsimp only
    rw [hfetch]
  refine ⟨hret, ?_⟩
  rw [hret]
  simp [Outcome.world, hstore]

/-- Tier 2 returns early when its first fetch reports an error: one `Error`
line, no panic, nothing dispatched, and the store as it was. -/
theorem CrawlerPageCollection_fetch_error (env : Env) (maxRoutine : Int) (url : String)
    (w : World) (e : GoError)
    (hfetch : (getFailRetry env.net url 3 none w).1.err = some e) :
    CrawlerPageCollection env maxRoutine url w =
      .returned ((getFailRetry env.net url 3 none w).2.emit
        (.error "Can not get page url: %v, err %v" [e])) ∧
    (CrawlerPageCollection env maxRoutine url w).items = [] ∧
    (CrawlerPageCollection env maxRoutine url w).world.store = w.store := by
  have hstore := getFailRetry_store env.net url 4 3 none w (by decide)
  have hret : CrawlerPageCollection env maxRoutine url w =
      .returned ((getFailRetry env.net url 3 none w).2.emit
        (.error "Can not get page url: %v, err %v" [e])) := by
    unfold CrawlerPageCollection
    dsimp only
    rw [hfetch]
  refine ⟨hret, ?_, ?_⟩
  · rw [hret]; rfl
  · rw [hret]
    simp [Outcome.world, hstore]

/-- Tier 1 does not return when its fetch reports an error: it writes the
`Error` line and goes on to query the nil document. -/
theorem startRunCrawlerPage_fetch_error (env : Env) (maxRoutine : Int) (w : World)
    (e : GoError)
    (hfetch : (getFailRetry env.net "https://www.fanatics.com/" 3 none w).1 = ⟨none, some e⟩) :
    startRunCrawlerPage env maxRoutine w =
      .panicked ((getFailRetry env.net "https://www.fanatics.com/" 3 none w).2.emit
        (.error "Can not get page %v" [e])) nilDereference := by
  unfold startRunCrawlerPage
  dsimp only
  rw [hfetch]

/-- C8 (fails on the code at tier 1): with the remote side down, the fetch of
`startRunCrawlerPage` returns the error `connection refused` and no document;
the tier logs it and, instead of returning, queries the nil document and
panics, whereas `CrawlerPageCollection` and `CrawlerPageProduct` return early
on the same fetch result. -/
theorem startRunCrawlerPage_no_early_return :
    (getFailRetry netDown "https://www.fanatics.com/" 3 none World.start).1
      = ⟨none, some "connection refused"⟩ ∧
    startRunCrawlerPage (Env.around netDown) 10 World.start =
      .panicked ((getFailRetry netDown "https://www.fanatics.com/" 3 none World.start).2.emit
        (.error "Can not get page %v" ["connection refused"])) nilDereference ∧
    CrawlerPageCollection (Env.around netDown) 10 "https://www.fanatics.com/" World.start =
      .returned ((getFailRetry netDown "https://www.fanatics.com/" 3 none World.start).2.emit
        (.error "Can not get page url: %v, err %v" ["connection refused"])) ∧
    CrawlerPageProduct (Env.around netDown) "https://www.fanatics.com/" false World.start =
      .returned ((getFailRetry netDown "https://www.fanatics.com/" 3 none World.start).2.emit
        (.error "Can not get page url: %v, err %v" ["connection refused"])) := by
  have hf : (getFailRetry netDown "https://www.fanatics.com/" 3 none World.start).1
      = ⟨none, some "connection refused"⟩ :=
    getFailRetry_transport_aux netDown "https://www.fanatics.com/" "connection refused"
      (fun _ => rfl) 3 none World.start
  have he : (getFailRetry (Env.around netDown).net "https://www.fanatics.com/" 3 none
      World.start).1.err = some "connection refused" := by
    show (getFailRetry netDown "https://www.fanatics.com/" 3 none World.start).1.err = _
    rw [hf]
  refine ⟨hf, ?_, ?_, ?_⟩
  · exact startRunCrawlerPage_fetch_error (Env.around netDown) 10 World.start
      "connection refused" hf
  · exact (CrawlerPageCollection_fetch_error (Env.around netDown) 10
      "https://www.fanatics.com/" World.start "connection refused" he).1
  · exact (CrawlerPageProduct_fetch_error (Env.around netDown)
      "https://www.fanatics.com/" false World.start "connection refused" he).1

/-! ### The dispatch loops -/

theorem exitedCount_le_length {α : Type} (ws : List (Worker α)) :
    exitedCount ws ≤ ws.length := by
  induction ws with
  | nil => simp [exitedCount]
  | cons w rest ih => cases w <;> simp [exitedCount] <;> omega

theorem exitedCount_append_recv {α : Type} (ws : List (Worker α)) :
    exitedCount (ws ++ [Worker.recv]) = exitedCount ws := by
  induction ws with
  | nil => simp [exitedCount]
  | cons w rest ih => cases w <;> simp [exitedCount, ih]

/-- A worker that has not returned and is replaced by one that has not
returned leaves the count as it is. -/
theorem exitedCount_set_same {α : Type} (old new : Worker α)
    (hold : old ≠ Worker.exited) (hnew : new ≠ Worker.exited) :
    ∀ (ws : List (Worker α)) (i : Nat), ws[i]? = some old →
      exitedCount (ws.set i new) = exitedCount ws := by
  intro ws
  induction ws with
  | nil => intro i h; simp at h
  | cons w rest ih =>
    intro i h
    cases i with
    | zero =>
      simp only [List.getElem?_cons_zero, Option.some.injEq] at h
      subst h
      cases w <;> cases new <;> simp_all [exitedCount]
    | succ j =>
      simp only [List.getElem?_cons_succ] at h
      have := ih j h
      cases w <;> simp [exitedCount, this]

/-- A worker at the receive that returns adds one to the count. -/
theorem exitedCount_set_exited {α : Type} :
    ∀ (ws : List (Worker α)) (i : Nat), ws[i]? = some Worker.recv →
      exitedCount (ws.set i Worker.exited) = exitedCount ws + 1 := by
  intro ws
  induction ws with
  | nil => intro i h; simp at h
  | cons w rest ih =>
    intro i h
    cases i with
    | zero =>
      simp only [List.getElem?_cons_zero, Option.some.injEq] at h
      subst h
      simp [exitedCount]
    | succ j =>
      simp only [List.getElem?_cons_succ] at h
      have := ih j h
      cases w <;> simp [exitedCount, this]

theorem stuckInv_init {α : Type} (C : Int) (urls : List α) (hC : 0 ≤ C) :
    StuckInv C urls.length (Dispatch.init urls) := by
  refine ⟨rfl, ?_, ?_, ?_, ?_⟩
  · simp [Dispatch.init, exitedCount]
  · simp [Dispatch.init]
  · simpa [Dispatch.init] using hC
  · intro i hi
    simp only [Dispatch.init, MainPc.spawn.injEq] at hi
    simp [Dispatch.init, hi]

/-- With fewer workers than items, every step keeps `StuckInv`. -/
theorem stuckInv_step {α : Type} (C : Int) (urls : List α) (hCK : C < (urls.length : Int))
    (a : Action) (s t : Dispatch α) (hinv : StuckInv C urls.length s)
    (hstep : step C urls a s = some t) : StuckInv C urls.length t := by
  obtain ⟨hp, hwg, hret, hlen, hspawn⟩ := hinv
  have hex := exitedCount_le_length s.workers
  unfold step at hstep
  rw [hp] at hstep
  simp only [Bool.false_eq_true, if_false] at hstep
  cases a with
  | main =>
    simp only at hstep
    unfold stepMain at hstep
    cases hpc : s.pc with
    | spawn i =>
      rw [hpc] at hstep
      have hi := hspawn i hpc
      by_cases hlt : i < C
      · simp only [hlt, if_true, Option.some.injEq] at hstep
        subst hstep
        refine ⟨hp, ?_, ?_, ?_, ?_⟩
        · simpa [exitedCount_append_recv] using hwg
        · simp
        · simp only [List.length_append, List.length_singleton, Nat.cast_add, Nat.cast_one]
          omega
        · intro j hj
          simp only [MainPc.spawn.injEq] at hj
          simp only [List.length_append, List.length_singleton, Nat.cast_add, Nat.cast_one]
          omega
      · simp only [hlt, if_false, Option.some.injEq] at hstep
        subst hstep
        exact ⟨hp, hwg, by simp, hlen, by intro j hj; simp at hj⟩
    | send rest =>
      rw [hpc] at hstep
      cases rest with
      | nil =>
        simp only [Option.some.injEq] at hstep
        subst hstep
        exact ⟨hp, hwg, by simp, hlen, by intro j hj; simp at hj⟩
      | cons x xs =>
        simp only at hstep
        by_cases hcap : s.ch.length < s.cap
        · simp only [hcap, if_true, Option.some.injEq] at hstep
          subst hstep
          exact ⟨hp, hwg, by simp, hlen, by intro j hj; simp at hj⟩
        · simp [hcap] at hstep
    | wait =>
      rw [hpc] at hstep
      have hne : ¬ s.wg = 0 := by omega
      simp [hne] at hstep
    | returned => exact absurd hpc hret
  | worker i =>
    simp only at hstep
    unfold stepWorker at hstep
    cases hw : s.workers[i]? with
    | none => rw [hw] at hstep; simp at hstep
    | some wk =>
      rw [hw] at hstep
      cases wk with
      | recv =>
        simp only at hstep
        cases hch : s.ch with
        | nil =>
          rw [hch] at hstep
          simp only at hstep
          by_cases hcl : s.closed = true
          · have hnn : ¬ (s.wg - 1 < 0) := by omega
            simp only [hcl, if_true, hnn, if_false, Option.some.injEq] at hstep
            subst hstep
            refine ⟨hp, ?_, hret, ?_, ?_⟩
            · simp only [exitedCount_set_exited s.workers i hw, Nat.cast_add, Nat.cast_one]
              omega
            · simpa using hlen
            · intro j hj
              simpa using hspawn j hj
          · simp [hcl] at hstep
        | cons x rest =>
          rw [hch] at hstep
          simp only [Option.some.injEq] at hstep
          subst hstep
          refine ⟨hp, ?_, hret, ?_, ?_⟩
          · simpa [exitedCount_set_same Worker.recv (Worker.got x) (by simp) (by simp)
              s.workers i hw] using hwg
          · simpa using hlen
          · intro j hj
            simpa using hspawn j hj
      | got x =>
        simp only [Option.some.injEq] at hstep
        subst hstep
        refine ⟨hp, ?_, hret, ?_, ?_⟩
        · simpa [exitedCount_set_same (Worker.got x) Worker.recv (by simp) (by simp)
            s.workers i hw] using hwg
        · simpa using hlen
        · intro j hj
          simpa using hspawn j hj
      | exited => simp at hstep
  | handler j =>
    simp only at hstep
    unfold stepHandler at hstep
    cases hh : s.handlers[j]? with
    | none => rw [hh] at hstep; simp at hstep
    | some h =>
      obtain ⟨x, st⟩ := h
      rw [hh] at hstep
      cases st with
      | pending =>
        simp only [Option.some.injEq] at hstep
        subst hstep
        exact ⟨hp, hwg, hret, hlen, hspawn⟩
      | running =>
        simp only [Option.some.injEq] at hstep
        subst hstep
        exact ⟨hp, hwg, hret, hlen, hspawn⟩
      | finished => simp at hstep

/-- With fewer workers than items, `StuckInv` holds along every schedule. -/
theorem stuckInv_run {α : Type} (C : Int) (urls : List α) (hCK : C < (urls.length : Int))
    (sched : List Action) :
    ∀ (s t : Dispatch α), StuckInv C urls.length s → run C urls sched s = some t →
      StuckInv C urls.length t := by
  induction sched with
  | nil =>
    intro s t hinv hrun
    simp only [run, Option.some.injEq] at hrun
    exact hrun ▸ hinv
  | cons a rest ih =>
    intro s t hinv hrun
    unfold run at hrun
    cases hs : step C urls a s with
    | none => rw [hs] at hrun; simp at hrun
    | some s1 =>
      rw [hs] at hrun
      exact ih s1 t (stuckInv_step C urls hCK a s s1 hinv hs) hrun

/-- With `0 <= C < K` the counter set to `K` stays positive in every state a
run reaches, and the caller never gets past `wg.Wait()`. -/
theorem dispatch_stuck {α : Type} (C : Int) (urls : List α) (hC : 0 ≤ C)
    (hCK : C < (urls.length : Int)) (sched : List Action) (t : Dispatch α)
    (hrun : run C urls sched (Dispatch.init urls) = some t) :
    0 < t.wg ∧ t.pc ≠ MainPc.returned ∧ t.panicked = false := by
  obtain ⟨hp, hwg, hret, hlen, -⟩ :=
    stuckInv_run C urls hCK sched _ t (stuckInv_init C urls hC) hrun
  have hex := exitedCount_le_length t.workers
  refine ⟨?_, hret, hp⟩
  omega

/-! #### Every item is handed to the handler once -/

theorem heldItems_append_recv {α : Type} (ws : List (Worker α)) :
    heldItems (ws ++ [Worker.recv]) = heldItems ws := by
  induction ws with
  | nil => simp [heldItems]
  | cons w rest ih => cases w <;> simp [heldItems, ih]

/-- A worker at the receive that takes `x` adds `x` to the held items. -/
theorem heldItems_set_got {α : Type} (x : α) :
    ∀ (ws : List (Worker α)) (i : Nat), ws[i]? = some Worker.recv →
      (heldItems (ws.set i (Worker.got x))).Perm (x :: heldItems ws) := by
  intro ws
  induction ws with
  | nil => intro i h; simp at h
  | cons w rest ih =>
    intro i h
    cases i with
    | zero =>
      simp only [List.getElem?_cons_zero, Option.some.injEq] at h
      subst h
      simp [heldItems]
    | succ j =>
      simp only [List.getElem?_cons_succ] at h
      have hj := ih j h
      cases w with
      | recv => simpa [heldItems] using hj
      | exited => simpa [heldItems] using hj
      | got y =>
        simp only [List.set_cons_succ, heldItems]
        exact (List.Perm.cons y hj).trans (List.Perm.swap x y _)

/-- A worker that hands `x` to the handler removes `x` from the held items. -/
theorem heldItems_set_recv {α : Type} (x : α) :
    ∀ (ws : List (Worker α)) (i : Nat), ws[i]? = some (Worker.got x) →
      (x :: heldItems (ws.set i Worker.recv)).Perm (heldItems ws) := by
  intro ws
  induction ws with
  | nil => intro i h; simp at h
  | cons w rest ih =>
    intro i h
    cases i with
    | zero =>
      simp only [List.getElem?_cons_zero, Option.some.injEq] at h
      subst h
      simp [heldItems]
    | succ j =>
      simp only [List.getElem?_cons_succ] at h
      have hj := ih j h
      cases w with
      | recv => simpa [heldItems] using hj
      | exited => simpa [heldItems] using hj
      | got y =>
        simp only [List.set_cons_succ, heldItems]
        exact (List.Perm.swap y x _).trans (List.Perm.cons y hj)

/-- A worker at the receive that returns holds nothing, before and after. -/
theorem heldItems_set_exited {α : Type} :
    ∀ (ws : List (Worker α)) (i : Nat), ws[i]? = some Worker.recv →
      heldItems (ws.set i Worker.exited) = heldItems ws := by
  intro ws
  induction ws with
  | nil => intro i h; simp at h
  | cons w rest ih =>
    intro i h
    cases i with
    | zero =>
      simp only [List.getElem?_cons_zero, Option.some.injEq] at h
      subst h
      simp [heldItems]
    | succ j =>
      simp only [List.getElem?_cons_succ] at h
      have hj := ih j h
      cases w <;> simp [heldItems, hj]

/-- A handler goroutine changing state leaves the list of handled items as it is. -/
theorem map_fst_set_handler {α : Type} (x : α) (st st1 : HandlerState) :
    ∀ (hs : List (α × HandlerState)) (j : Nat), hs[j]? = some (x, st) →
      (hs.set j (x, st1)).map (fun h => h.1) = hs.map (fun h => h.1) := by
  intro hs
  induction hs with
  | nil => intro j h; simp at h
  | cons h0 rest ih =>
    intro j h
    cases j with
    | zero =>
      simp only [List.getElem?_cons_zero, Option.some.injEq] at h
      subst h
      simp
    | succ k =>
      simp only [List.getElem?_cons_succ] at h
      simp [ih k h]

/-- Every step moves an item between the four places or leaves them alone. -/
theorem whereabouts_step {α : Type} (C : Int) (urls : List α) (a : Action)
    (s t : Dispatch α) (hstep : step C urls a s = some t) :
    (t.whereabouts urls).Perm (s.whereabouts urls) := by
  unfold step at hstep
  cases hp : s.panicked with
  | true => simp [hp] at hstep
  | false =>
  rw [hp] at hstep
  simp only [Bool.false_eq_true, if_false] at hstep
  cases a with
  | main =>
    simp only at hstep
    unfold stepMain at hstep
    cases hpc : s.pc with
    | spawn i =>
      rw [hpc] at hstep
      by_cases hlt : i < C
      · simp only [hlt, if_true, Option.some.injEq] at hstep
        subst hstep
        simp [Dispatch.whereabouts, Dispatch.dispatched, heldItems_append_recv, unsent, hpc]
      · simp only [hlt, if_false, Option.some.injEq] at hstep
        subst hstep
        simp [Dispatch.whereabouts, Dispatch.dispatched, unsent, hpc]
    | send rest =>
      rw [hpc] at hstep
      cases rest with
      | nil =>
        simp only [Option.some.injEq] at hstep
        subst hstep
        simp [Dispatch.whereabouts, Dispatch.dispatched, unsent, hpc]
      | cons x xs =>
        simp only at hstep
        by_cases hcap : s.ch.length < s.cap
        · simp only [hcap, if_true, Option.some.injEq] at hstep
          subst hstep
          simp [Dispatch.whereabouts, Dispatch.dispatched, unsent, hpc]
        · simp [hcap] at hstep
    | wait =>
      rw [hpc] at hstep
      by_cases hz : s.wg = 0
      · simp only [hz, if_true, Option.some.injEq] at hstep
        subst hstep
        simp [Dispatch.whereabouts, Dispatch.dispatched, unsent, hpc]
      · simp [hz] at hstep
    | returned =>
      rw [hpc] at hstep
      simp at hstep
  | worker i =>
    simp only at hstep
    unfold stepWorker at hstep
    cases hw : s.workers[i]? with
    | none => rw [hw] at hstep; simp at hstep
    | some wk =>
      rw [hw] at hstep
      cases wk with
      | recv =>
        simp only at hstep
        cases hch : s.ch with
        | nil =>
          rw [hch] at hstep
          simp only at hstep
          by_cases hcl : s.closed = true
          · by_cases hneg : s.wg - 1 < 0
            · simp only [hcl, if_true, hneg, Option.some.injEq] at hstep
              subst hstep
              simp [Dispatch.whereabouts, Dispatch.dispatched, hch]
            · simp only [hcl, if_true, hneg, if_false, Option.some.injEq] at hstep
              subst hstep
              simp [Dispatch.whereabouts, Dispatch.dispatched, hch,
                heldItems_set_exited s.workers i hw]
          · simp [hcl] at hstep
        | cons x rest =>
          rw [hch] at hstep
          simp only [Option.some.injEq] at hstep
          subst hstep
          simp only [Dispatch.whereabouts, Dispatch.dispatched, hch]
          refine List.Perm.append_left _ ?_
          have h1 := heldItems_set_got x s.workers i hw
          have h2 : (heldItems (s.workers.set i (Worker.got x)) ++ (rest ++ unsent urls s.pc)).Perm
              ((x :: heldItems s.workers) ++ (rest ++ unsent urls s.pc)) :=
            List.Perm.append_right _ h1
          refine h2.trans ?_
          simpa using (@List.perm_middle α x (heldItems s.workers)
            (rest ++ unsent urls s.pc)).symm
      | got x =>
        simp only [Option.some.injEq] at hstep
        subst hstep
        simp only [Dispatch.whereabouts, Dispatch.dispatched, List.map_append, List.map_cons,
          List.map_nil, List.append_assoc, List.singleton_append]
        refine List.Perm.append_left _ ?_
        have h1 := heldItems_set_recv x s.workers i hw
        have h2 : ((x :: heldItems (s.workers.set i Worker.recv)) ++ (s.ch ++ unsent urls s.pc)).Perm
            (heldItems s.workers ++ (s.ch ++ unsent urls s.pc)) :=
          List.Perm.append_right _ h1
        simpa using h2
      | exited => simp at hstep
  | handler j =>
    simp only at hstep
    unfold stepHandler at hstep
    cases hh : s.handlers[j]? with
    | none => rw [hh] at hstep; simp at hstep
    | some h =>
      obtain ⟨x, st⟩ := h
      rw [hh] at hstep
      cases st with
      | pending =>
        simp only [Option.some.injEq] at hstep
        subst hstep
        simp [Dispatch.whereabouts, Dispatch.dispatched,
          map_fst_set_handler x HandlerState.pending HandlerState.running s.handlers j hh]
      | running =>
        simp only [Option.some.injEq] at hstep
        subst hstep
        simp [Dispatch.whereabouts, Dispatch.dispatched,
          map_fst_set_handler x HandlerState.running HandlerState.finished s.handlers j hh]
      | finished => simp at hstep

/-- In every state a run reaches, for any worker count, the items handed to
the handler, held by workers, buffered and unsent are together the work items,
each as often as it is in the list: no item is handed over twice, and once
nothing is held, buffered or unsent, every item has been handed over once. -/
theorem dispatch_exactly_once {α : Type} (C : Int) (urls : List α) (sched : List Action) :
    ∀ (s t : Dispatch α), run C urls sched s = some t →
      (t.whereabouts urls).Perm (s.whereabouts urls) := by
  induction sched with
  | nil =>
    intro s t hrun
    simp only [run, Option.some.injEq] at hrun
    exact hrun ▸ List.Perm.refl _
  | cons a rest ih =>
    intro s t hrun
    unfold run at hrun
    cases hs : step C urls a s with
    | none => rw [hs] at hrun; simp at hrun
    | some s1 =>
      rw [hs] at hrun
      exact (ih s1 t hrun).trans (whereabouts_step C urls a s s1 hs)

/-- From the initial state: the four places together hold exactly the work items. -/
theorem dispatch_exactly_once_init {α : Type} (C : Int) (urls : List α)
    (sched : List Action) (t : Dispatch α)
    (hrun : run C urls sched (Dispatch.init urls) = some t) :
    (t.whereabouts urls).Perm urls := by
  have h := dispatch_exactly_once C urls sched _ t hrun
  simpa [Dispatch.whereabouts, Dispatch.dispatched, Dispatch.init, heldItems, unsent] using h

/-- C4 (fails on the code): with one worker and the two items `a`, `b`, the
run in which both items are received and handed to the handler, each once,
and the worker has seen the closed channel and returned, ends with the
counter at 1 and the caller blocked in `wg.Wait()`; no run reaches a state
with the counter at zero or the caller released. -/
theorem dispatch_barrier_never_released :
    (∃ s, run 1 ["a", "b"] (scheduleDispatchBoth ++ [.worker 0]) (Dispatch.init ["a", "b"])
        = some s ∧
      s.dispatched = ["a", "b"] ∧ s.ch = [] ∧ s.workers = [Worker.exited] ∧
      s.pc = MainPc.wait ∧ s.wg = 1 ∧
      step 1 ["a", "b"] Action.main s = none) ∧
    ¬ ∃ sched s, run 1 ["a", "b"] sched (Dispatch.init ["a", "b"]) = some s ∧
      (s.wg = 0 ∨ s.pc = MainPc.returned) := by
  constructor
  · refine ⟨_, rfl, ?_⟩
    decide
  · rintro ⟨sched, s, hrun, h⟩
    obtain ⟨hwg, hret, -⟩ := dispatch_stuck 1 ["a", "b"] (by decide) (by decide) sched s hrun
    rcases h with h | h
    · omega
    · exact hret h

/-- C5 (fails on the code): with one worker and the two items `a`, `b`, the
run in which the worker has started `go handler` for both items and both
handler goroutines have begun reaches a state with 2 handler invocations
started and not finished, more than the worker count 1. -/
theorem dispatch_exceeds_worker_count :
    ∃ s, run 1 ["a", "b"] (scheduleDispatchBoth ++ [.handler 0, .handler 1])
        (Dispatch.init ["a", "b"]) = some s ∧
      s.handlers = [("a", HandlerState.running), ("b", HandlerState.running)] ∧
      s.active = 2 ∧ 1 < s.active := by
  refine ⟨_, rfl, ?_⟩
  decide

end Crawler

